import Mathlib

/-!
Verification of the `project-euler` benchmark harness
(`benchmark/benchmark.py`, `python/problem-3/main.py`,
`python/problem-4/main.py`).

Shallow embedding conventions:
* Python floats are modelled as exact rationals (`ℚ`); IEEE rounding is
  abstracted away.  The float square root used by `statistics.stdev` is an
  uninterpreted parameter `sqrtQ : ℚ → ℚ`.
* The SQLite table `benchmarks` is modelled as a list of rows in file order
  (`DB`); `LIMIT 1` becomes `List.find?`, `INSERT` appends, `UPDATE`
  maps over the rows matching the `WHERE` clause.
* Python exceptions are modelled with `Except String`; a raised exception
  carries its message (quote characters around interpolated values are
  omitted from the modelled messages).
* `None` returned by a Python function is `Option.none`.
-/

namespace Euler

/-- A row of the `benchmarks` SQLite table.  `answer` is a nullable TEXT
column, hence `Option String`. -/
structure Record where
  problem : Int
  language : String
  min_time : ℚ
  avg_time : ℚ
  max_time : ℚ
  stdev : ℚ
  timestamp : String
  answer : Option String
deriving DecidableEq, Repr

/-- The `benchmarks` table: rows in file order. -/
abbrev DB := List Record

/-- The dict returned by `benchmark`: `{"avg", "min", "max", "stdev", "answer"}`.
`answer` is always a string there (latched from the first measured run). -/
structure Stats where
  avg : ℚ
  min : ℚ
  max : ℚ
  stdev : ℚ
  answer : String
deriving DecidableEq, Repr

/-- Row matches `WHERE problem = ? AND answer IS NOT NULL`. -/
def answerRowMatch (problem : Int) (r : Record) : Bool :=
  r.problem == problem && r.answer.isSome

/-- Row matches `WHERE problem = ? AND language = ?`. -/
def keyRowMatch (problem : Int) (language : String) (r : Record) : Bool :=
  r.problem == problem && r.language == language

/-- The message of the `ValueError` raised on a cross-language answer
mismatch (quotes around the interpolated values omitted). -/
def mismatchMsg (problem : Int) (expected got : String) : String :=
  "Answer mismatch for problem " ++ toString problem ++ ": expected "
    ++ expected ++ ", got " ++ got

/-- The fresh row built by the INSERT branch of `update_database`. -/
def newRow (problem : Int) (language : String) (stats : Stats)
    (ts : String) : Record :=
  { problem := problem, language := language,
    min_time := stats.min, avg_time := stats.avg,
    max_time := stats.max, stdev := stats.stdev,
    timestamp := ts, answer := some stats.answer }

/-- The row rewrite performed by the UPDATE branch of `update_database`:
`SET min_time = ?, avg_time = ?, max_time = ?, stdev = ?, timestamp = ?,
answer = ?`. -/
def overwriteRow (stats : Stats) (ts : String) (r : Record) : Record :=
  { r with min_time := stats.min, avg_time := stats.avg,
           max_time := stats.max, stdev := stats.stdev,
           timestamp := ts, answer := some stats.answer }

/-- Second half of `update_database` (lines 146-194): look up the record
for exactly `(problem, language)`, then INSERT / UPDATE / leave alone. -/
def update_databaseTail (db : DB) (problem : Int) (language : String)
    (stats : Stats) (ts : String) : Except String (DB × Bool × String) :=
  -- SELECT min_time FROM benchmarks WHERE problem = ? AND language = ?
  match db.find? (keyRowMatch problem language) with
  | none =>
    -- INSERT INTO benchmarks VALUES (...); return True, "new"
    .ok (db ++ [newRow problem language stats ts], true, "new")
  | some existing =>
    if stats.min < existing.min_time then
      -- UPDATE benchmarks SET ... WHERE problem = ? AND language = ?
      .ok (db.map (fun r =>
            if keyRowMatch problem language r then overwriteRow stats ts r
            else r),
           true, "improved")
    else
      -- return False, "slower"
      .ok (db, false, "slower")

/-- `update_database(conn, problem, language, stats)` from
`benchmark/benchmark.py` (lines 127-194).  The current wall-clock time
`datetime.datetime.now().isoformat()` is passed in as `ts`.  On success it
returns the new table contents together with the Python return value
`(accepted, status)`; a raised `ValueError` is the `.error` case (raised
before any INSERT/UPDATE executes, so the table is unchanged). -/
def update_database (db : DB) (problem : Int) (language : String)
    (stats : Stats) (ts : String) : Except String (DB × Bool × String) :=
  -- SELECT answer FROM benchmarks WHERE problem = ? AND answer IS NOT NULL LIMIT 1
  match db.find? (answerRowMatch problem) with
  | some r =>
    match r.answer with
    | some a =>
      if stats.answer ≠ a then
        .error (mismatchMsg problem a stats.answer)
      else
        update_databaseTail db problem language stats ts
    | none => update_databaseTail db problem language stats ts
  | none => update_databaseTail db problem language stats ts

/-! ### Timing Sampler: `benchmark(cmd, runs, warmup)` (lines 96-124)

An external command is modelled by the outcomes of its successive measured
invocations: a list of `(elapsed wall-clock duration, stripped stdout)`
pairs, one per measured run, in order.  Warm-up runs are executed and
discarded by the code; they are modelled by a list of outputs that the
embedding ignores, exactly as the loop `for _ in range(warmup):
run_command(cmd)` ignores them. -/

/-- `statistics.mean(times)`: sum divided by length (raises on `[]`,
handled at the call site). -/
def pyMean (xs : List ℚ) : ℚ := xs.sum / xs.length

/-- `min(times)` on a nonempty list: left fold of binary `min`. -/
def pyMin : List ℚ → ℚ
  | [] => 0
  | x :: xs => xs.foldl min x

/-- `max(times)` on a nonempty list: left fold of binary `max`. -/
def pyMax : List ℚ → ℚ
  | [] => 0
  | x :: xs => xs.foldl max x

/-- The sample (N-1) variance used by `statistics.stdev`:
`Σ (x - mean)² / (n - 1)`.  `statistics.stdev xs = sqrt (sampleVariance xs)`;
the square root is kept abstract as a parameter `sqrtQ` below because it
leaves `ℚ`. -/
def sampleVariance (xs : List ℚ) : ℚ :=
  (xs.map (fun x => (x - pyMean xs) ^ 2)).sum / (xs.length - 1 : ℚ)

/-- The message of the `ValueError` raised on inconsistent measured output
(quotes around the interpolated values omitted). -/
def inconsistentMsg (expected got : String) : String :=
  "Inconsistent output detected: expected " ++ expected ++ ", got " ++ got

/-- The measured loop of `benchmark` (lines 102-116): walk the runs in
order, appending each elapsed time to `times`; latch the first output as
`answer`; on any later output differing from the latch, raise. -/
def benchLoop : List (ℚ × String) → List ℚ → Option String →
    Except String (List ℚ × Option String)
  | [], times, answer => .ok (times, answer)
  | (t, output) :: rest, times, none => benchLoop rest (times ++ [t]) (some output)
  | (t, output) :: rest, times, some a =>
    if a ≠ output then .error (inconsistentMsg a output)
    else benchLoop rest (times ++ [t]) (some a)

/-- `benchmark(cmd, runs, warmup)` (lines 96-124).  `sqrtQ` is the float
square root used by `statistics.stdev`; `warmupOutputs` are the discarded
warm-up runs; `runs` are the measured runs.  Returns the stats dict, or the
raised exception.  `statistics.mean([])` raising `StatisticsError` (the
`runs = 0` case, never reached by `main` which uses `RUNS = 20`) is the
final `.error`. -/
def benchmark (sqrtQ : ℚ → ℚ) (warmupOutputs : List String)
    (runs : List (ℚ × String)) : Except String Stats :=
  match benchLoop runs [] none with
  | .error e => .error e
  | .ok (times, answer) =>
    match times, answer with
    | _ :: _, some a =>
      .ok { avg := pyMean times, min := pyMin times, max := pyMax times,
            stdev := if 1 < times.length then sqrtQ (sampleVariance times)
                     else 0,
            answer := a }
    | _, _ => .error "mean requires at least one data point"

/-! ### Problem Discovery: `discover_problems(language, project_root)`
(lines 54-81)

The filesystem is modelled by the listing of the per-language directories
under the project root: a language directory is a list of entries, each a
name together with whether it is a directory and which plain files it
contains.  `lang_dir.glob("problem-*")` keeps the entries whose name starts
with `problem-` (`*` matches anything, including the empty string) and
`sorted(...)` orders them by their path string, which under a common parent
is the byte-wise lexical order of the names. -/

/-- One entry of a language directory: its name, whether it is a
directory, and the names of the plain files inside it. -/
structure DirEntry where
  name : String
  is_dir : Bool
  files : List String
deriving DecidableEq, Repr

/-- The project root: for each configured language directory name, its
listing (`none` when the directory does not exist). -/
structure ProjectRoot where
  python : Option (List DirEntry)
deriving Repr

/-- An element of the list returned by `discover_problems`:
`{"number": ..., "path": ...}` (the path kept as the directory name). -/
structure ProblemEntry where
  number : Int
  path : String
deriving DecidableEq, Repr

/-- `LANGUAGE_CONFIGS` (lines 18-29): only `"python"` is configured (the
rust entry is commented out).  Only the fields discovery uses are kept. -/
def LANGUAGE_CONFIGS (language : String) : Option (String × String) :=
  if language = "python" then some ("python", "main.py") else none

/-! String primitives are modelled over `List Char` (code-point lists),
because that is also how Python compares and slices strings. -/

/-- `s.startswith(pre)` / the `problem-*` glob prefix test. -/
def charsStartsWith : List Char → List Char → Bool
  | [], _ => true
  | _ :: _, [] => false
  | p :: ps, c :: cs => p == c && charsStartsWith ps cs

/-- Python string comparison `a <= b`: lexicographic on code points. -/
def charsLe : List Char → List Char → Bool
  | [], _ => true
  | _ :: _, [] => false
  | a :: as, b :: bs =>
    if a.toNat < b.toNat then true
    else if b.toNat < a.toNat then false
    else charsLe as bs

/-- `s.split(sep)` for a one-character separator (the code splits on
`"-"`): every occurrence separates, so `"problem-"` gives
`["problem", ""]` and `""` gives `[""]`. -/
def splitOnChar (sep : Char) : List Char → List (List Char)
  | [] => [[]]
  | c :: rest =>
    let r := splitOnChar sep rest
    if c == sep then [] :: r
    else
      match r with
      | piece :: pieces => (c :: piece) :: pieces
      | [] => [[c]]

/-- `s.strip()` as used by `int()`: drop surrounding whitespace. -/
def charsStrip (s : List Char) : List Char :=
  ((s.dropWhile Char.isWhitespace).reverse.dropWhile Char.isWhitespace).reverse

/-- Characters accepted inside the digit part of a Python `int()` literal
after stripping: decimal digits, with single underscores allowed between
digits (non-ASCII digit forms are not modelled). -/
def pyDigitsOk : List Char → Bool
  | [] => false
  | [c] => c.isDigit
  | c :: '_' :: rest => c.isDigit && pyDigitsOk rest
  | c :: c' :: rest => c.isDigit && pyDigitsOk (c' :: rest)

/-- Python `int(s)` for a decimal string: strips surrounding whitespace,
allows one optional sign, then digits with single interior underscores
(non-ASCII digit forms are not modelled); `none` models the raised
`ValueError`. -/
def pyInt (s : List Char) : Option Int :=
  let t := charsStrip s
  let neg := charsStartsWith ['-'] t
  let core := if neg || charsStartsWith ['+'] t then t.drop 1 else t
  if pyDigitsOk core then
    let n := core.foldl
      (fun acc c => if c == '_' then acc else acc * 10 + (c.toNat - 48)) 0
    some (if neg then -(n : Int) else (n : Int))
  else none

/-- The body of the discovery loop for one candidate directory
(lines 66-79): require a directory, parse the piece after the first `-`
with `int(...)` (a `ValueError` skips the entry), and require the
language's entry-point file to exist inside. -/
def discoverStep (file_pattern : String) (acc : List ProblemEntry)
    (e : DirEntry) : List ProblemEntry :=
  if e.is_dir then
    match pyInt (((splitOnChar '-' e.name.toList).getD 1 [])) with
    | some n =>
      if e.files.contains file_pattern then
        acc ++ [{ number := n, path := e.name }]
      else acc
    | none => acc
  else acc

/-- `discover_problems(language, project_root)` (lines 54-81).  The
`sorted(...)` of paths under one parent is their byte-wise lexical name
order; Python's stable sort is modelled by the stable `insertionSort`. -/
def discover_problems (language : String) (project_root : ProjectRoot) :
    List ProblemEntry :=
  match LANGUAGE_CONFIGS language with
  | none => []
  | some (dirName, file_pattern) =>
    match (if dirName = "python" then project_root.python else none) with
    | none => []
    | some listing =>
      let candidates :=
        (listing.filter
            (fun e => charsStartsWith "problem-".toList e.name.toList)).insertionSort
          (fun a b => charsLe a.name.toList b.name.toList)
      candidates.foldl (discoverStep file_pattern) []

/-! ### `init_database` (lines 32-51) and the orchestrator `main`
(lines 263-342)

The SQLite file on disk is `Option DB` (`none` when the file does not
exist).  A live connection handle is modelled by the table contents it
gives access to; the Python value `None` is `Option.none`, so the value
bound by `conn = init_database()` has type `Option Conn`. -/

/-- A live SQLite connection, modelled by the table it gives access to. -/
abbrev Conn := DB

/-- The message of the `AttributeError` raised when a method is called on
`None` (quote characters omitted). -/
def noneCursorMsg : String :=
  "AttributeError: NoneType object has no attribute cursor"

/-- `init_database()` (lines 32-51): `sqlite3.connect` opens the file,
creating it when absent; `CREATE TABLE IF NOT EXISTS` keeps any existing
rows.  The function body has no `return` statement, so the Python value it
produces is `None`.  Result: (state of the database file, returned value). -/
def init_database (disk : Option DB) : Option DB × Option Conn :=
  (some (disk.getD []), none)

/-- `conn.cursor()` dispatch for `update_database`: calling through a
`None` connection raises `AttributeError` (line 129); otherwise the real
`update_database` runs against the connection's table. -/
def update_database_conn (conn : Option Conn) (problem : Int)
    (language : String) (stats : Stats) (ts : String) :
    Except String (Option Conn × Bool × String) :=
  match conn with
  | none => .error noneCursorMsg
  | some db =>
    match update_database db problem language stats ts with
    | .error e => .error e
    | .ok (db', accepted, status) => .ok (some db', accepted, status)

/-- `ORDER BY problem, language` on the table rows. -/
def orderRows (a b : Record) : Prop :=
  a.problem < b.problem ∨ (a.problem = b.problem ∧ a.language ≤ b.language)

instance : DecidableRel orderRows := fun a b => by
  unfold orderRows; infer_instance

/-- `get_all_results(conn)` (lines 197-207): `conn.cursor()` on `None`
raises `AttributeError`; otherwise returns all rows ordered by
(problem, language).  Sorting is modelled by the stable `insertionSort`
(rows with equal keys cannot occur under the primary key). -/
def get_all_results (conn : Option Conn) : Except String (List Record) :=
  match conn with
  | none => .error noneCursorMsg
  | some db => .ok (db.insertionSort orderRows)

/-- The parsed command-line arguments (lines 264-273). -/
structure Args where
  language : Option String
  problem : Option Int

/-- What a run of `main` produces, as far as the claims are concerned:
the counters it prints, whether the two report files were written, and the
process exit code (1 for an uncaught exception, 0 otherwise). -/
structure MainOutcome where
  total : Nat
  newCount : Nat
  improvedCount : Nat
  exportsWritten : Bool
  exitCode : Nat
  uncaught : Option String
deriving Repr

/-- The `try/except` body for one discovered problem (lines 313-326):
run `benchmark` then `update_database`; any exception is caught, printed
as `FAILED`, and the loop continues.  `benchOutcome` is the outcome of
`benchmark(cmd, RUNS, WARMUP)` for this problem, supplied as an oracle
since it depends on the external processes. -/
def mainUnit (st : Option Conn × Nat × Nat × Nat)
    (benchOutcome : Except String Stats) (problem : Int)
    (language : String) (ts : String) : Option Conn × Nat × Nat × Nat :=
  let (conn, total, nw, imp) := st
  match benchOutcome with
  | .error _ => (conn, total + 1, nw, imp)
  | .ok stats =>
    match update_database_conn conn problem language stats ts with
    | .error _ => (conn, total + 1, nw, imp)
    | .ok (conn', _, status) =>
      (conn', total + 1,
       if status = "new" then nw + 1 else nw,
       if status = "improved" then imp + 1 else imp)

/-- The per-language / per-problem double loop of `main`
(lines 283-326), threading the connection and the three counters. -/
def mainLoop (args : Args) (root : ProjectRoot)
    (bench : String → Int → Except String Stats) (ts : String)
    (st₀ : Option Conn × Nat × Nat × Nat) : Option Conn × Nat × Nat × Nat :=
  let languages := match args.language with
    | some l => [l]
    | none => ["python"]
  languages.foldl (fun st language =>
    let problems := discover_problems language root
    let problems := match args.problem with
      | some pn => problems.filter (fun p : ProblemEntry => p.number == pn)
      | none => problems
    problems.foldl
      (fun st (p : ProblemEntry) =>
        mainUnit st (bench language p.number) p.number language ts)
      st) st₀

/-- `main()` (lines 263-342).  `bench language n` is the outcome of
`benchmark` for problem `n` of `language` (an oracle for the external
processes); `ts` stands for the `datetime.datetime.now()` calls.  After
the per-problem loop, `get_all_results(conn)` runs outside any
`try/except`: if it raises, the exception is uncaught, the CSV and
markdown exports never execute and the process exits with code 1. -/
def mainRun (args : Args) (disk : Option DB) (root : ProjectRoot)
    (bench : String → Int → Except String Stats) (ts : String) :
    MainOutcome :=
  let conn := (init_database disk).2
  let st := mainLoop args root bench ts (conn, 0, 0, 0)
  let (conn, total, nw, imp) := st
  match get_all_results conn with
  | .error e =>
    { total := total, newCount := nw, improvedCount := imp,
      exportsWritten := false, exitCode := 1, uncaught := some e }
  | .ok _results =>
    -- export_csv(results); export_markdown(results); summary; exit 0
    { total := total, newCount := nw, improvedCount := imp,
      exportsWritten := true, exitCode := 0, uncaught := none }

/-! ### The bundled solution scripts

`python/problem-3/main.py` and `python/problem-4/main.py`, modelled as the
list of lines each writes to standard output.  All integers involved stay
far below 2^53, so Python's float divisions `factor/2` and `factor/n`
(with `n` dividing `factor`) are exact and `int(...)` of them is natural
division. -/

/-- The inner `for n in range(2, int(factor/2))` of problem 3: first
divisor of `factor` at or after `n`, scanning at most `fuel` candidates;
`none` when the range is exhausted. -/
def firstDivisorGo (factor : ℕ) : ℕ → ℕ → Option ℕ
  | _, 0 => none
  | n, fuel + 1 =>
    if factor % n == 0 then some n else firstDivisorGo factor (n + 1) fuel

/-- First `n` in `range(2, int(factor/2))` dividing `factor`. -/
def firstDivisor (factor : ℕ) : Option ℕ :=
  firstDivisorGo factor 2 (factor / 2 - 2)

/-- One pass of problem 3's `while` body: for every current factor with a
proper divisor `n`, contribute `{n, int(factor/n)}` to `updated_factors`;
factors in which no divisor is found contribute nothing.  The Python set
is modelled as a duplicate-free list (`List.insert` skips present
elements); which order the elements sit in is immaterial to everything
the script observes (emptiness and the final maximum). -/
def factorStep (factors : List ℕ) : List ℕ :=
  factors.foldl (fun acc f =>
    match firstDivisor f with
    | some n => acc.insert n |>.insert (f / n)
    | none => acc) []

/-- Problem 3's `while factor_found:` loop, with explicit fuel:
`factor_found` is true exactly when `updated_factors` is nonempty, and
the nonempty `updated_factors` then replaces `factors`.  `none` means the
fuel ran out before the loop finished. -/
def factorLoop : ℕ → List ℕ → Option (List ℕ)
  | 0, _ => none
  | fuel + 1, factors =>
    let updated := factorStep factors
    if updated = [] then some factors else factorLoop fuel updated

/-- The lines printed by `python/problem-3/main.py`: run the factor loop
from `{600851475143}` (10 iterations of fuel are ample), sort the final
set in reverse (`sorted(factors, reverse=True)`) and print its first
element.  `none` would mean the fuel ran out or `s[0]` raised on an empty
set. -/
def problem3_lines : Option (List String) :=
  (factorLoop 10 [600851475143]).bind (fun fs =>
    ((fs.insertionSort (· ≤ ·)).reverse.head?).map (fun m => [toString m]))

/-- `check_palindrome(num)` from `python/problem-4/main.py`:
`str(num) == str(num)[::-1]`. -/
def check_palindrome (num : ℕ) : Bool :=
  let s := (toString num).toList
  s == s.reverse

/-- The inner `for j in range(999, 0, -1)` loop of problem 4, with `j`
counting down; `break` when `prod <= largest`. -/
def problem4Inner (i : ℕ) : ℕ → ℕ → ℕ
  | 0, largest => largest
  | j + 1, largest =>
    let prod := i * (j + 1)
    if prod ≤ largest then largest
    else problem4Inner i j (if check_palindrome prod then prod else largest)

/-- The outer `for i in range(999, 0, -1)` loop of problem 4. -/
def problem4Outer : ℕ → ℕ → ℕ
  | 0, largest => largest
  | i + 1, largest => problem4Outer i (problem4Inner (i + 1) 999 largest)

/-- The lines printed by `python/problem-4/main.py`. -/
def problem4_lines : List String := [toString (problem4Outer 999 0)]

/-! ## Theorems -/

/-- One half, in explicit normal form so that kernel evaluation never
hits the non-reducing `Rat.inv` path. -/
def q12 : ℚ := ⟨1, 2, by norm_num, by norm_num⟩

/-- Two fifths. -/
def q25 : ℚ := ⟨2, 5, by norm_num, by norm_num⟩

/-- Three fifths. -/
def q35 : ℚ := ⟨3, 5, by norm_num, by norm_num⟩

/-- Sample row used by the concrete witnesses below: problem 1 under
python, best min 0.5, answer "42". -/
def rec42 : Record :=
  { problem := 1, language := "python", min_time := q12, avg_time := 1,
    max_time := 2, stdev := 0, timestamp := "t0", answer := some "42" }

/-- New stats for problem 1 that are slower than `rec42` (min 0.6). -/
def statsSlower : Stats :=
  { avg := 1, min := q35, max := 2, stdev := 0, answer := "42" }

/-- New stats for problem 1 that are faster than `rec42` (min 0.4). -/
def statsFaster : Stats :=
  { avg := 1, min := q25, max := 2, stdev := 0, answer := "42" }

/-- Stats carrying the conflicting answer "43". -/
def statsGo43 : Stats :=
  { avg := 1, min := q12, max := 2, stdev := 0, answer := "43" }

lemma keyRowMatch_problem {p : Int} {l : String} {r : Record}
    (h : keyRowMatch p l r = true) : r.problem = p := by
  simp only [keyRowMatch, Bool.and_eq_true, beq_iff_eq] at h
  exact h.1

lemma answerRowMatch_problem {p : Int} {r : Record}
    (h : answerRowMatch p r = true) : r.problem = p ∧ r.answer.isSome := by
  simp only [answerRowMatch, Bool.and_eq_true, beq_iff_eq] at h
  exact h

/-- When every hit of the cross-language answer lookup carries the new
stats' answer, the guard passes and `update_database` proceeds to the
keyed lookup. -/
theorem update_database_guard_pass (db : DB) (problem : Int)
    (language : String) (stats : Stats) (ts : String)
    (hguard : ∀ r, db.find? (answerRowMatch problem) = some r →
      r.answer = some stats.answer) :
    update_database db problem language stats ts =
      update_databaseTail db problem language stats ts := by
  unfold update_database
  cases hfa : db.find? (answerRowMatch problem) with
  | none => rfl
  | some r =>
    have ha := hguard r hfa
    simp [ha]

/-- C1 (amended): when the answer guard passes and a record exists for
the exact (problem, language) key, `update_database` overwrites all of
min/avg/max/stdev/timestamp/answer of the key's rows in place and
returns status "improved" if the new min is strictly lower, and returns
the table unchanged with status "slower" otherwise. -/
theorem update_database_existing_key (db : DB) (problem : Int)
    (language : String) (stats : Stats) (ts : String) (existing : Record)
    (hguard : ∀ r, db.find? (answerRowMatch problem) = some r →
      r.answer = some stats.answer)
    (hkey : db.find? (keyRowMatch problem language) = some existing) :
    update_database db problem language stats ts =
      (if stats.min < existing.min_time then
        .ok (db.map (fun r =>
              if keyRowMatch problem language r then overwriteRow stats ts r
              else r),
             true, "improved")
      else .ok (db, false, "slower")) := by
  rw [update_database_guard_pass db problem language stats ts hguard]
  unfold update_databaseTail
  rw [hkey]

/-- C1 witness: a faster run against the store `[rec42]` overwrites the
row in place and reports "improved". -/
theorem update_database_existing_key_witness :
    update_database [rec42] 1 "python" statsFaster "t1" =
      .ok ([overwriteRow statsFaster "t1" rec42], true, "improved") := by
  have h := update_database_existing_key [rec42] 1 "python" statsFaster "t1"
    rec42
    (by
      intro r hr
      have h42 : List.find? (answerRowMatch 1) [rec42] = some rec42 := by
        decide
      rw [h42] at hr
      injection hr with h
      rw [← h]
      decide)
    (by decide)
  rw [h]
  rfl

/-- C1 counterexample: a non-improving run returns the status string
"slower", not "unchanged" as claimed (the table is indeed left
untouched). -/
theorem update_database_slower_status :
    update_database [rec42] 1 "python" statsSlower "t1" =
      .ok ([rec42], false, "slower") ∧ "slower" ≠ "unchanged" := by
  constructor
  · rfl
  · decide

/-- C2: on a store whose non-null answers for the problem agree with one
another (the cross-record invariant the spec requires of every defined
store state; on a disagreeing store the `LIMIT 1` pick order is
unspecified in SQLite and the spec declares the behavior undefined), if
some stored record for the problem carries a non-null answer differing
from the new stats' answer, the call raises the answer-mismatch
`ValueError` — whichever row the scan returns first, its answer is that
same differing answer.  The raise happens before any INSERT/UPDATE, so
no row is inserted or mutated. -/
theorem update_database_answer_mismatch (db : DB) (problem : Int)
    (language : String) (stats : Stats) (ts : String) (r : Record)
    (a : String)
    (hagree : ∀ r1 ∈ db, ∀ r2 ∈ db, r1.problem = problem →
      r2.problem = problem → ∀ a1 a2, r1.answer = some a1 →
      r2.answer = some a2 → a1 = a2)
    (hmem : r ∈ db) (hp : r.problem = problem) (ha : r.answer = some a)
    (hne : stats.answer ≠ a) :
    update_database db problem language stats ts =
      .error (mismatchMsg problem a stats.answer) := by
  unfold update_database
  cases hfa : db.find? (answerRowMatch problem) with
  | none =>
    exfalso
    have hnot := List.find?_eq_none.mp hfa r hmem
    apply hnot
    simp [answerRowMatch, hp, ha]
  | some r0 =>
    have hmem0 := List.mem_of_find?_eq_some hfa
    have hmatch := List.find?_some hfa
    obtain ⟨hp0, hsome0⟩ := answerRowMatch_problem hmatch
    obtain ⟨a0, ha0⟩ := Option.isSome_iff_exists.mp hsome0
    have haa : a0 = a := hagree r0 hmem0 r hmem hp0 hp a0 a ha0 ha
    subst haa
    simp [ha0, hne]

/-- C2 witness: the spec's own example — problem 1 stores answer "42"
under python; recording answer "43" under go fails with the mismatch
error. -/
theorem update_database_answer_mismatch_witness :
    update_database [rec42] 1 "go" statsGo43 "t1" =
      .error (mismatchMsg 1 "42" "43") := by
  have h := update_database_answer_mismatch [rec42] 1 "go" statsGo43 "t1"
    rec42 "42"
    (by
      intro r1 h1 r2 h2 _ _ a1 a2 ha1 ha2
      have e1 : r1 = rec42 := List.mem_singleton.mp h1
      have e2 : r2 = rec42 := List.mem_singleton.mp h2
      subst e1
      subst e2
      rw [ha1] at ha2
      injection ha2)
    (by decide) (by decide) (by decide) (by decide)
  exact h

/-- C8: with no row for the (problem, language) key and a passing answer
guard, `update_database` appends a fresh row carrying exactly the given
stats and timestamp, returns status "new", and the table then holds
exactly one row for that key. -/
theorem update_database_new_insert (db : DB) (problem : Int)
    (language : String) (stats : Stats) (ts : String)
    (hguard : ∀ r, db.find? (answerRowMatch problem) = some r →
      r.answer = some stats.answer)
    (hnone : db.find? (keyRowMatch problem language) = none) :
    update_database db problem language stats ts =
      .ok (db ++ [newRow problem language stats ts], true, "new") ∧
    (db ++ [newRow problem language stats ts]).filter
        (keyRowMatch problem language) =
      [newRow problem language stats ts] := by
  constructor
  · rw [update_database_guard_pass db problem language stats ts hguard]
    unfold update_databaseTail
    rw [hnone]
  · rw [List.filter_append]
    have hdb : db.filter (keyRowMatch problem language) = [] := by
      rw [List.filter_eq_nil_iff]
      intro r hr
      have := List.find?_eq_none.mp hnone r hr
      simpa using this
    have hnew : keyRowMatch problem language (newRow problem language stats ts)
        = true := by
      simp [keyRowMatch, newRow]
    simp [hdb, hnew]

/-- Fresh stats with min 0.5 and answer "42", for the C8 witness. -/
def statsNew : Stats :=
  { avg := 1, min := q12, max := 2, stdev := 0, answer := "42" }

/-- C8 witness: the spec's example — an empty store, problem 1, python,
min 0.5 gives status "new" and a single stored row with min 0.5. -/
theorem update_database_new_insert_witness :
    update_database [] 1 "python" statsNew "t1" =
      .ok ([newRow 1 "python" statsNew "t1"], true, "new") ∧
    ([] ++ [newRow 1 "python" statsNew "t1"]).filter (keyRowMatch 1 "python") =
      [newRow 1 "python" statsNew "t1"] := by
  have h := update_database_new_insert [] 1 "python" statsNew "t1"
    (by intro r hr; cases hr) (by decide)
  simpa using h

/-! ### The cross-record invariant (C5) -/

/-- Stores reachable from the empty table through successful
`update_database` calls. -/
inductive ReachableDB : DB → Prop where
  | empty : ReachableDB []
  | step {db db' : DB} {problem : Int} {language : String} {stats : Stats}
      {ts : String} {accepted : Bool} {status : String} :
      ReachableDB db →
      update_database db problem language stats ts =
        .ok (db', accepted, status) →
      ReachableDB db'

/-- The cross-record invariant: any two rows for the same problem carry
the same answer. -/
def answersAgree (db : DB) : Prop :=
  ∀ r1 ∈ db, ∀ r2 ∈ db, r1.problem = r2.problem → r1.answer = r2.answer

/-- Auxiliary invariant: every stored row has a non-null answer (inserts
and updates always write `stats.answer`). -/
def allAnswered (db : DB) : Prop :=
  ∀ r ∈ db, r.answer.isSome

lemma overwriteRow_problem (stats : Stats) (ts : String) (r : Record) :
    (overwriteRow stats ts r).problem = r.problem := rfl

lemma overwriteRow_answer (stats : Stats) (ts : String) (r : Record) :
    (overwriteRow stats ts r).answer = some stats.answer := rfl

lemma newRow_problem (p : Int) (l : String) (stats : Stats) (ts : String) :
    (newRow p l stats ts).problem = p := rfl

lemma newRow_answer (p : Int) (l : String) (stats : Stats) (ts : String) :
    (newRow p l stats ts).answer = some stats.answer := rfl

/-- The keyed half of `update_database` preserves the invariants, given
that every stored row for the problem already carries the new stats'
answer. -/
lemma update_databaseTail_preserves_invariant {db db' : DB} {p : Int}
    {l : String} {stats : Stats} {ts : String} {acc : Bool} {st : String}
    (hok : update_databaseTail db p l stats ts = .ok (db', acc, st))
    (hsame : ∀ r ∈ db, r.problem = p → r.answer = some stats.answer)
    (hagree : answersAgree db) (hall : allAnswered db) :
    answersAgree db' ∧ allAnswered db' := by
  unfold update_databaseTail at hok
  split at hok
  · -- INSERT branch
    simp only [Except.ok.injEq, Prod.mk.injEq] at hok
    obtain ⟨hdb, -, -⟩ := hok
    subst hdb
    constructor
    · intro r1 h1 r2 h2 hp
      rcases List.mem_append.mp h1 with h1l | h1r
      · rcases List.mem_append.mp h2 with h2l | h2r
        · exact hagree r1 h1l r2 h2l hp
        · have hr2 : r2 = newRow p l stats ts := by simpa using h2r
          subst hr2
          rw [newRow_answer, hsame r1 h1l (by simpa [newRow_problem] using hp)]
      · have hr1 : r1 = newRow p l stats ts := by simpa using h1r
        subst hr1
        rcases List.mem_append.mp h2 with h2l | h2r
        · rw [newRow_answer,
            hsame r2 h2l (by simpa [newRow_problem] using hp.symm)]
        · have hr2 : r2 = newRow p l stats ts := by simpa using h2r
          rw [hr2]
    · intro r hr
      rcases List.mem_append.mp hr with hl | hs
      · exact hall r hl
      · have : r = newRow p l stats ts := by simpa using hs
        rw [this, newRow_answer]
        rfl
  · -- record exists for the key
    split at hok
    · -- UPDATE branch
      simp only [Except.ok.injEq, Prod.mk.injEq] at hok
      obtain ⟨hdb, -, -⟩ := hok
      subst hdb
      constructor
      · intro r1 h1 r2 h2 hp
        obtain ⟨s1, hs1, hr1⟩ := List.mem_map.mp h1
        obtain ⟨s2, hs2, hr2⟩ := List.mem_map.mp h2
        subst hr1; subst hr2
        by_cases k1 : keyRowMatch p l s1 = true <;>
          by_cases k2 : keyRowMatch p l s2 = true <;>
            simp only [k1, k2, if_pos, if_neg, Bool.not_eq_true,
              if_true, if_false] at hp ⊢
        · rw [overwriteRow_answer, overwriteRow_answer]
        · rw [overwriteRow_answer]
          have hp2 : s2.problem = p := by
            rw [← hp, overwriteRow_problem] at *
            exact (keyRowMatch_problem k1) ▸ hp.symm ▸ rfl
          rw [hsame s2 hs2 hp2]
        · rw [overwriteRow_answer]
          have hp1 : s1.problem = p := by
            rw [overwriteRow_problem] at hp
            rw [hp, keyRowMatch_problem k2]
          rw [hsame s1 hs1 hp1]
        · exact hagree s1 hs1 s2 hs2 hp
      · intro r hr
        obtain ⟨s, hs, hrs⟩ := List.mem_map.mp hr
        subst hrs
        by_cases k : keyRowMatch p l s = true
        · simp only [k, if_true]
          rw [overwriteRow_answer]
          rfl
        · simp only [k, if_false, Bool.not_eq_true]
          simpa using hall s hs
    · -- "slower" branch: no mutation
      simp only [Except.ok.injEq, Prod.mk.injEq] at hok
      obtain ⟨hdb, -, -⟩ := hok
      subst hdb
      exact ⟨hagree, hall⟩

/-- A successful `update_database` call preserves the cross-record
invariant (and the all-answered auxiliary). -/
lemma update_database_preserves_invariant {db db' : DB} {p : Int}
    {l : String} {stats : Stats} {ts : String} {acc : Bool} {st : String}
    (hok : update_database db p l stats ts = .ok (db', acc, st))
    (hagree : answersAgree db) (hall : allAnswered db) :
    answersAgree db' ∧ allAnswered db' := by
  unfold update_database at hok
  split at hok
  case _ r heq =>
    split at hok
    case _ a ha =>
      split at hok
      case isTrue hne => cases hok
      case isFalse hne =>
        have hmem := List.mem_of_find?_eq_some heq
        have hmatch := List.find?_some heq
        obtain ⟨hrp, -⟩ := answerRowMatch_problem hmatch
        refine update_databaseTail_preserves_invariant hok ?_ hagree hall
        intro r' hr' hrp'
        have h1 := hagree r' hr' r hmem (by rw [hrp', hrp])
        have h2 : stats.answer = a := by simpa using hne
        rw [h1, ha, h2]
    case _ ha =>
      have hmatch := List.find?_some heq
      obtain ⟨-, hrsome⟩ := answerRowMatch_problem hmatch
      rw [ha] at hrsome
      exact absurd hrsome (by simp)
  case _ heq =>
    refine update_databaseTail_preserves_invariant hok ?_ hagree hall
    intro r hr hrp
    exfalso
    have hnot := List.find?_eq_none.mp heq r hr
    apply hnot
    have hsome := hall r hr
    simp [answerRowMatch, hrp, hsome]

lemma reachableDB_invariant {db : DB} (h : ReachableDB db) :
    answersAgree db ∧ allAnswered db := by
  induction h with
  | empty =>
    constructor
    · intro r hr
      cases hr
    · intro r hr
      cases hr
  | step _ hok ih =>
    exact update_database_preserves_invariant hok ih.1 ih.2

/-- C5: in every store reachable from the empty table by successful
`update_database` calls, all rows for one problem carry an identical
answer. -/
theorem reachable_store_answers_agree (db : DB) (h : ReachableDB db) :
    answersAgree db :=
  (reachableDB_invariant h).1

/-- C5 witness: the two-step reachable store (python then go, both
answer "42") satisfies the cross-record invariant. -/
theorem reachable_store_answers_agree_witness :
    answersAgree [newRow 1 "python" statsNew "t1",
                  newRow 1 "go" statsNew "t2"] := by
  have h1 : update_database [] 1 "python" statsNew "t1" =
      .ok ([newRow 1 "python" statsNew "t1"], true, "new") := by rfl
  have h2 : update_database [newRow 1 "python" statsNew "t1"] 1 "go"
        statsNew "t2" =
      .ok ([newRow 1 "python" statsNew "t1", newRow 1 "go" statsNew "t2"],
           true, "new") := by rfl
  exact reachable_store_answers_agree _
    (ReachableDB.step (ReachableDB.step ReachableDB.empty h1) h2)

/-! ### Timing Sampler theorems (C6, C7) -/

lemma foldl_min_mem (xs : List ℚ) : ∀ x : ℚ, xs.foldl min x ∈ x :: xs := by
  induction xs with
  | nil => intro x; simp
  | cons h t ih =>
    intro x
    rw [List.foldl_cons]
    rcases List.mem_cons.mp (ih (min x h)) with h1 | h1
    · rw [h1]
      rcases min_choice x h with hc | hc <;> rw [hc]
      · exact List.mem_cons_self _ _
      · exact List.mem_cons_of_mem _ (List.mem_cons_self _ _)
    · exact List.mem_cons_of_mem _ (List.mem_cons_of_mem _ h1)

lemma foldl_min_le (xs : List ℚ) :
    ∀ x : ℚ, ∀ y ∈ x :: xs, xs.foldl min x ≤ y := by
  induction xs with
  | nil => intro x y hy; simp at hy; simp [hy]
  | cons h t ih =>
    intro x y hy
    rw [List.foldl_cons]
    rcases List.mem_cons.mp hy with h1 | hy'
    · rw [h1]
      exact le_trans (ih (min x h) _ (List.mem_cons_self _ _))
        (min_le_left _ _)
    · rcases List.mem_cons.mp hy' with h1 | hy'
      · rw [h1]
        exact le_trans (ih (min x h) _ (List.mem_cons_self _ _))
          (min_le_right _ _)
      · exact ih (min x h) y (List.mem_cons_of_mem _ hy')

lemma foldl_max_mem (xs : List ℚ) : ∀ x : ℚ, xs.foldl max x ∈ x :: xs := by
  induction xs with
  | nil => intro x; simp
  | cons h t ih =>
    intro x
    rw [List.foldl_cons]
    rcases List.mem_cons.mp (ih (max x h)) with h1 | h1
    · rw [h1]
      rcases max_choice x h with hc | hc <;> rw [hc]
      · exact List.mem_cons_self _ _
      · exact List.mem_cons_of_mem _ (List.mem_cons_self _ _)
    · exact List.mem_cons_of_mem _ (List.mem_cons_of_mem _ h1)

lemma foldl_max_ge (xs : List ℚ) :
    ∀ x : ℚ, ∀ y ∈ x :: xs, y ≤ xs.foldl max x := by
  induction xs with
  | nil => intro x y hy; simp at hy; simp [hy]
  | cons h t ih =>
    intro x y hy
    rw [List.foldl_cons]
    rcases List.mem_cons.mp hy with h1 | hy'
    · rw [h1]
      exact le_trans (le_max_left _ _)
        (ih (max x h) _ (List.mem_cons_self _ _))
    · rcases List.mem_cons.mp hy' with h1 | hy'
      · rw [h1]
        exact le_trans (le_max_right _ _)
          (ih (max x h) _ (List.mem_cons_self _ _))
      · exact ih (max x h) y (List.mem_cons_of_mem _ hy')

/-- Once the answer is latched, a run of consistent outputs appends all
their durations and keeps the latch. -/
lemma benchLoop_consistent (first : String) :
    ∀ (runs : List (ℚ × String)) (acc : List ℚ),
      (∀ r ∈ runs, r.2 = first) →
      benchLoop runs acc (some first) =
        .ok (acc ++ runs.map Prod.fst, some first) := by
  intro runs
  induction runs with
  | nil =>
    intro acc _
    simp [benchLoop]
  | cons hd tl ih =>
    intro acc h
    obtain ⟨t, out⟩ := hd
    have hout : out = first := h (t, out) (List.mem_cons_self _ _)
    subst hout
    rw [benchLoop, if_neg (by simp)]
    rw [ih (acc ++ [t]) (fun r hr => h r (List.mem_cons_of_mem _ hr))]
    simp

/-- C6: on R ≥ 1 measured runs that all print the same output,
`benchmark` returns stats whose min and max are the least and greatest of
the R durations, whose avg is their sum over R, whose stdev is the float
square root of the sample (N-1) variance for R ≥ 2 and exactly 0 for
R = 1, and whose answer is the first run's output. -/
theorem benchmark_consistent_stats (sqrtQ : ℚ → ℚ)
    (warmupOutputs : List String) (t0 : ℚ) (out0 : String)
    (rest : List (ℚ × String))
    (hcons : ∀ r ∈ rest, r.2 = out0) :
    ∃ s, benchmark sqrtQ warmupOutputs ((t0, out0) :: rest) = .ok s ∧
      (s.min ∈ t0 :: rest.map Prod.fst ∧
        ∀ x ∈ t0 :: rest.map Prod.fst, s.min ≤ x) ∧
      s.avg = (t0 :: rest.map Prod.fst).sum /
        (t0 :: rest.map Prod.fst).length ∧
      (s.max ∈ t0 :: rest.map Prod.fst ∧
        ∀ x ∈ t0 :: rest.map Prod.fst, x ≤ s.max) ∧
      (rest = [] → s.stdev = 0) ∧
      (rest ≠ [] →
        s.stdev = sqrtQ (sampleVariance (t0 :: rest.map Prod.fst))) ∧
      s.answer = out0 := by
  have hloop : benchLoop ((t0, out0) :: rest) [] none =
      .ok (t0 :: rest.map Prod.fst, some out0) := by
    rw [benchLoop, List.nil_append,
      benchLoop_consistent out0 rest [t0] hcons]
    simp
  refine ⟨{ avg := pyMean (t0 :: rest.map Prod.fst),
            min := pyMin (t0 :: rest.map Prod.fst),
            max := pyMax (t0 :: rest.map Prod.fst),
            stdev := if 1 < (t0 :: rest.map Prod.fst).length then
                sqrtQ (sampleVariance (t0 :: rest.map Prod.fst)) else 0,
            answer := out0 }, ?_, ?_, ?_, ?_, ?_, ?_, ?_⟩
  · unfold benchmark
    rw [hloop]
  · exact ⟨foldl_min_mem _ t0, foldl_min_le _ t0⟩
  · rfl
  · exact ⟨foldl_max_mem _ t0, foldl_max_ge _ t0⟩
  · intro h
    subst h
    rfl
  · intro h
    have hlen : 1 < (t0 :: rest.map Prod.fst).length := by
      cases rest with
      | nil => exact absurd rfl h
      | cons a b => simp
    simp only [if_pos hlen]
  · rfl

/-- C6 witness: two consistent runs of 1s and 2s with answer "42". -/
theorem benchmark_consistent_stats_witness :
    ∃ s, benchmark id ["w"] [((1 : ℚ), "42"), ((2 : ℚ), "42")] = .ok s ∧
      (s.min ∈ [(1 : ℚ), 2] ∧ ∀ x ∈ [(1 : ℚ), 2], s.min ≤ x) ∧
      s.avg = ([(1 : ℚ), 2].sum / [(1 : ℚ), 2].length) ∧
      (s.max ∈ [(1 : ℚ), 2] ∧ ∀ x ∈ [(1 : ℚ), 2], x ≤ s.max) ∧
      ([((2 : ℚ), "42")] = ([] : List (ℚ × String)) → s.stdev = 0) ∧
      (([((2 : ℚ), "42")] : List (ℚ × String)) ≠ [] →
        s.stdev = id (sampleVariance [(1 : ℚ), 2])) ∧
      s.answer = "42" :=
  benchmark_consistent_stats id ["w"] 1 "42" [((2 : ℚ), "42")]
    (fun r hr => by rw [List.mem_singleton.mp hr])

/-- Once the answer is latched, the loop raises the inconsistency error
at the first differing output, whatever follows it. -/
lemma benchLoop_mismatch (first : String) :
    ∀ (pre : List (ℚ × String)) (t : ℚ) (out : String)
      (suf : List (ℚ × String)) (acc : List ℚ),
      (∀ r ∈ pre, r.2 = first) → out ≠ first →
      benchLoop (pre ++ (t, out) :: suf) acc (some first) =
        .error (inconsistentMsg first out) := by
  intro pre
  induction pre with
  | nil =>
    intro t out suf acc _ hne
    rw [List.nil_append, benchLoop, if_pos (fun h => hne h.symm)]
  | cons hd tl ih =>
    intro t out suf acc h hne
    obtain ⟨t', out'⟩ := hd
    have hout : out' = first := h (t', out') (List.mem_cons_self _ _)
    subst hout
    rw [List.cons_append, benchLoop, if_neg (by simp)]
    exact ih t out suf _ (fun r hr => h r (List.mem_cons_of_mem _ hr)) hne

/-- C7: as soon as a measured run's output differs from the first run's
latched output, `benchmark` fails with the descriptive inconsistency
error built at the first mismatching run, and returns no stats. -/
theorem benchmark_inconsistent_fails (sqrtQ : ℚ → ℚ)
    (warmupOutputs : List String) (t0 : ℚ) (out0 : String)
    (pre : List (ℚ × String)) (t : ℚ) (out : String)
    (suf : List (ℚ × String))
    (hpre : ∀ r ∈ pre, r.2 = out0) (hne : out ≠ out0) :
    benchmark sqrtQ warmupOutputs ((t0, out0) :: (pre ++ (t, out) :: suf)) =
      .error (inconsistentMsg out0 out) ∧
    ∀ s, benchmark sqrtQ warmupOutputs
        ((t0, out0) :: (pre ++ (t, out) :: suf)) ≠ .ok s := by
  have hloop : benchLoop ((t0, out0) :: (pre ++ (t, out) :: suf)) [] none =
      .error (inconsistentMsg out0 out) := by
    rw [benchLoop]
    exact benchLoop_mismatch out0 pre t out suf [t0] hpre hne
  constructor
  · unfold benchmark
    rw [hloop]
  · intro s hs
    unfold benchmark at hs
    rw [hloop] at hs
    cases hs

/-- C7 witness: two runs printing "a" then "b" fail with the
inconsistency error. -/
theorem benchmark_inconsistent_fails_witness :
    benchmark id [] [((1 : ℚ), "a"), ((2 : ℚ), "b")] =
      .error (inconsistentMsg "a" "b") ∧
    ∀ s, benchmark id [] [((1 : ℚ), "a"), ((2 : ℚ), "b")] ≠ .ok s := by
  have h := benchmark_inconsistent_fails id [] 1 "a" [] 2 "b" []
    (fun r hr => absurd hr (List.not_mem_nil r)) (by decide)
  simpa using h

/-! ### Problem Discovery theorems (C9) -/

lemma charsLe_total : ∀ a b : List Char,
    charsLe a b = true ∨ charsLe b a = true := by
  intro a
  induction a with
  | nil => intro b; left; rfl
  | cons x xs ih =>
    intro b
    cases b with
    | nil => right; rfl
    | cons y ys =>
      simp only [charsLe]
      rcases Nat.lt_trichotomy x.toNat y.toNat with h | h | h
      · left
        rw [if_pos h]
      · rw [if_neg (by omega), if_neg (by omega), if_neg (by omega),
          if_neg (by omega)]
        exact ih ys
      · right
        rw [if_pos h]

lemma charsLe_trans : ∀ a b c : List Char,
    charsLe a b = true → charsLe b c = true → charsLe a c = true := by
  intro a
  induction a with
  | nil => intro b c _ _; rfl
  | cons x xs ih =>
    intro b c hab hbc
    cases b with
    | nil => exact absurd hab (by simp [charsLe])
    | cons y ys =>
      cases c with
      | nil => exact absurd hbc (by simp [charsLe])
      | cons z zs =>
        simp only [charsLe] at hab hbc ⊢
        split_ifs at hab hbc ⊢ <;>
          first
            | rfl
            | omega
            | exact ih ys zs hab hbc

/-- Which `ProblemEntry`, if any, one listing entry contributes: it must
be a directory, the piece of its name after the first "-" must parse with
`int(...)`, and it must contain the entry-point file.  (The name's
`problem-` prefix is checked separately by the glob.) -/
def acceptEntry (file_pattern : String) (e : DirEntry) : Option ProblemEntry :=
  if e.is_dir then
    match pyInt ((splitOnChar '-' e.name.toList).getD 1 []) with
    | some n =>
      if e.files.contains file_pattern then
        some { number := n, path := e.name }
      else none
    | none => none
  else none

lemma discoverStep_eq (fp : String) (acc : List ProblemEntry)
    (e : DirEntry) :
    discoverStep fp acc e = acc ++ (acceptEntry fp e).toList := by
  unfold discoverStep acceptEntry
  split
  · split
    · split <;> simp
    · simp
  · simp

lemma foldl_discoverStep (fp : String) :
    ∀ (l : List DirEntry) (acc : List ProblemEntry),
      l.foldl (discoverStep fp) acc = acc ++ l.filterMap (acceptEntry fp) := by
  intro l
  induction l with
  | nil => intro acc; simp
  | cons e t ih =>
    intro acc
    rw [List.foldl_cons, discoverStep_eq, ih, List.append_assoc,
      List.filterMap_cons]
    cases acceptEntry fp e <;> simp

/-- The python branch of `discover_problems`, written as
filter-sort-accept. -/
lemma discover_problems_python (root : ProjectRoot)
    (listing : List DirEntry) (h : root.python = some listing) :
    discover_problems "python" root =
      ((listing.filter
          (fun e => charsStartsWith "problem-".toList e.name.toList)).insertionSort
        (fun a b => charsLe a.name.toList b.name.toList)).filterMap
        (acceptEntry "main.py") := by
  unfold discover_problems LANGUAGE_CONFIGS
  rw [if_pos rfl]
  simp only [if_pos rfl, h]
  exact foldl_discoverStep "main.py" _ []

/-- C9 (amended): an unknown language or an absent language directory
yields `[]`; otherwise the entries are exactly those immediate listing
entries that are directories, glob `problem-*` by name, whose name's
second "-"-separated piece parses as an integer (so `problem-3-x` is
accepted, with number 3), and that contain the entry-point file — and
they come in ascending lexical order of directory name, which for
multi-digit numbers is not ascending numeric order. -/
theorem discover_problems_spec (language : String) (root : ProjectRoot) :
    (language ≠ "python" → discover_problems language root = []) ∧
    (root.python = none → discover_problems language root = []) ∧
    (∀ listing, root.python = some listing →
      ∀ e : ProblemEntry, e ∈ discover_problems "python" root ↔
        ∃ d ∈ listing, charsStartsWith "problem-".toList d.name.toList = true ∧
          acceptEntry "main.py" d = some e) ∧
    List.Pairwise
      (fun a b : ProblemEntry => charsLe a.path.toList b.path.toList = true)
      (discover_problems language root) := by
  refine ⟨?_, ?_, ?_, ?_⟩
  · intro hl
    unfold discover_problems LANGUAGE_CONFIGS
    rw [if_neg hl]
  · intro hn
    unfold discover_problems LANGUAGE_CONFIGS
    split
    · rfl
    case _ d fp heq =>
      by_cases hlang : language = "python"
      · rw [if_pos hlang] at heq
        simp only [Option.some.injEq, Prod.mk.injEq] at heq
        rw [if_pos heq.1.symm, hn]
      · rw [if_neg hlang] at heq
        cases heq
  · intro listing h e
    rw [discover_problems_python root listing h]
    rw [List.mem_filterMap]
    constructor
    · rintro ⟨d, hd, hacc⟩
      rw [List.mem_insertionSort] at hd
      have := List.mem_filter.mp hd
      exact ⟨d, this.1, this.2, hacc⟩
    · rintro ⟨d, hd, hpre, hacc⟩
      refine ⟨d, ?_, hacc⟩
      rw [List.mem_insertionSort]
      exact List.mem_filter.mpr ⟨hd, hpre⟩
  · by_cases hl : language = "python"
    · subst hl
      cases hp : root.python with
      | none =>
        unfold discover_problems LANGUAGE_CONFIGS
        rw [if_pos rfl]
        simp only [if_pos rfl, hp]
        exact List.Pairwise.nil
      | some listing =>
        rw [discover_problems_python root listing hp]
        haveI : IsTotal DirEntry
            (fun a b => charsLe a.name.toList b.name.toList = true) :=
          ⟨fun a b => charsLe_total a.name.toList b.name.toList⟩
        haveI : IsTrans DirEntry
            (fun a b => charsLe a.name.toList b.name.toList = true) :=
          ⟨fun a b c => charsLe_trans a.name.toList b.name.toList c.name.toList⟩
        have hsorted := List.sorted_insertionSort
          (fun a b : DirEntry => charsLe a.name.toList b.name.toList = true)
          (listing.filter
            (fun e => charsStartsWith "problem-".toList e.name.toList))
        refine List.Pairwise.filterMap (acceptEntry "main.py") ?_ hsorted
        intro a a' hr b hb b' hb'
        have hba : b.path = a.name := by
          unfold acceptEntry at hb
          split at hb
          · split at hb
            · split at hb
              · simp only [Option.mem_def, Option.some.injEq] at hb
                rw [← hb]
              · cases hb
            · cases hb
          · cases hb
        have hba' : b'.path = a'.name := by
          unfold acceptEntry at hb'
          split at hb'
          · split at hb'
            · split at hb'
              · simp only [Option.mem_def, Option.some.injEq] at hb'
                rw [← hb']
              · cases hb'
            · cases hb'
          · cases hb'
        rw [hba, hba']
        exact hr
    · unfold discover_problems LANGUAGE_CONFIGS
      rw [if_neg hl]
      exact List.Pairwise.nil

/-- A language directory listing containing `problem-10`, `problem-3-x`,
`problem-abc` and `problem-4`, each a directory with `main.py`. -/
def listingC9 : List DirEntry :=
  [{ name := "problem-10", is_dir := true, files := ["main.py"] },
   { name := "problem-3-x", is_dir := true, files := ["main.py"] },
   { name := "problem-abc", is_dir := true, files := ["main.py"] },
   { name := "problem-4", is_dir := true, files := ["main.py"] }]

/-- A project root whose python directory is `listingC9`. -/
def rootC9 : ProjectRoot := { python := some listingC9 }

/-- C9 counterexample: over `listingC9` the code yields the numbers
[10, 3, 4] — `problem-3-x` is accepted although its name is not of the
form `problem-<integer>` (its name splits into three "-"-pieces, not
two), and the numbers are not in ascending order (lexical name order puts
`problem-10` before `problem-3-x` and `problem-4`). -/
theorem discover_problems_counterexample :
    discover_problems "python" rootC9 =
      [{ number := 10, path := "problem-10" },
       { number := 3, path := "problem-3-x" },
       { number := 4, path := "problem-4" }] ∧
    ¬ List.Sorted (· ≤ ·)
      ((discover_problems "python" rootC9).map
        (fun e : ProblemEntry => e.number)) ∧
    (∃ e ∈ discover_problems "python" rootC9,
      (splitOnChar '-' e.path.toList).length ≠ 2) := by
  refine ⟨by decide, by decide, ?_⟩
  refine ⟨{ number := 3, path := "problem-3-x" }, by decide, by decide⟩

/-- C9 witness for the amended theorem: its membership characterization
and name-ordering at the concrete root `rootC9`. -/
theorem discover_problems_spec_witness :
    (∀ e : ProblemEntry, e ∈ discover_problems "python" rootC9 ↔
      ∃ d ∈ listingC9,
        charsStartsWith "problem-".toList d.name.toList = true ∧
        acceptEntry "main.py" d = some e) ∧
    List.Pairwise
      (fun a b : ProblemEntry => charsLe a.path.toList b.path.toList = true)
      (discover_problems "python" rootC9) := by
  have h := discover_problems_spec "python" rootC9
  exact ⟨h.2.2.1 listingC9 rfl, h.2.2.2⟩

/-! ### `init_database` and orchestrator theorems (C3, C4) -/

lemma mainUnit_none (b : Except String Stats) (p : Int) (l ts : String)
    (t n i : Nat) :
    mainUnit (none, t, n, i) b p l ts = (none, t + 1, n, i) := by
  unfold mainUnit
  cases b with
  | error e => rfl
  | ok stats => rfl

lemma foldl_mainUnit_fst_none (bench : String → Int → Except String Stats)
    (language ts : String) :
    ∀ (ps : List ProblemEntry) (st : Option Conn × Nat × Nat × Nat),
      st.1 = none →
      (ps.foldl (fun st (p : ProblemEntry) =>
        mainUnit st (bench language p.number) p.number language ts) st).1 =
        none := by
  intro ps
  induction ps with
  | nil => intro st h; exact h
  | cons p tl ih =>
    intro st h
    rw [List.foldl_cons]
    apply ih
    obtain ⟨c, t, n, i⟩ := st
    simp only at h
    subst h
    rw [mainUnit_none]

lemma mainLoop_fst_none (args : Args) (root : ProjectRoot)
    (bench : String → Int → Except String Stats) (ts : String)
    (st : Option Conn × Nat × Nat × Nat) (h : st.1 = none) :
    (mainLoop args root bench ts st).1 = none := by
  unfold mainLoop
  generalize (match args.language with
    | some l => [l]
    | none => ["python"]) = langs
  induction langs generalizing st with
  | nil => exact h
  | cons l tl ih =>
    rw [List.foldl_cons]
    apply ih
    apply foldl_mainUnit_fst_none
    exact h

/-- C3: `init_database` ensures the table on the database file it opens,
but — having no `return` statement — evaluates to `None`, so the handle
`conn = init_database()` that `main` threads through its whole loop is
`None` for the entire run. -/
theorem init_database_returns_none (disk : Option DB) (args : Args)
    (root : ProjectRoot) (bench : String → Int → Except String Stats)
    (ts : String) (t n i : Nat) :
    (init_database disk).1 = some (disk.getD []) ∧
    (init_database disk).2 = none ∧
    (mainLoop args root bench ts ((init_database disk).2, t, n, i)).1 =
      none :=
  ⟨rfl, rfl, mainLoop_fst_none args root bench ts _ rfl⟩

/-- C4 (the code contradicts it): because `conn` is `None`, the
`get_all_results(conn)` call after the batch raises an uncaught
`AttributeError` on every run, so the CSV and markdown exports are never
written and the process exits with code 1, not 0. -/
theorem mainRun_never_exports (args : Args) (disk : Option DB)
    (root : ProjectRoot) (bench : String → Int → Except String Stats)
    (ts : String) :
    (mainRun args disk root bench ts).exportsWritten = false ∧
    (mainRun args disk root bench ts).exitCode = 1 ∧
    (mainRun args disk root bench ts).uncaught = some noneCursorMsg := by
  unfold mainRun
  dsimp only
  rcases hml : mainLoop args root bench ts ((init_database disk).2, 0, 0, 0)
    with ⟨c, t, n, i⟩
  have h := mainLoop_fst_none args root bench ts
    ((init_database disk).2, 0, 0, 0) rfl
  rw [hml] at h
  simp only at h
  subst h
  simp [get_all_results]

/-! ### The bundled scripts (C10) -/

set_option maxRecDepth 100000 in
/-- C10: `problem-3`'s while-loop over factor sets reaches, within 10
iterations, a state in which no new factor is found, and the script
prints the single line "6857"; `problem-4`'s bounded loops are total by
construction and the script prints exactly one line. -/
theorem bundled_scripts_single_line :
    problem3_lines = some ["6857"] ∧ problem4_lines.length = 1 := by
  constructor
  · decide
  · rfl

end Euler
